import Mathlib

/-!
Verification of the plant-watering-robot swarm coordination core.

The development shallowly embeds the TypeScript sources:
* `position.ts` — 2D positions and vectors (`Position`, `Vec`);
* `protocol.ts` — the swarm protocol table `PROTOCOL` and its event payloads;
* `plant.ts` — the plant machine, the request coordinator loop `runPlant`
  and its bid-selection code in `requestWater`;
* `robot.ts` — the robot machine, the fulfilment loop `runRobot`,
  its movement tick and its restart recovery.

JavaScript numbers are embedded as real numbers (geometry, with the
`Math.sqrt` of the source embedded as `Real.sqrt`) or as rationals
(clock arithmetic of the hydration loop, where only field operations
occur); machine states and events are inductive types, and the two
asynchronous loops are embedded as labelled transition systems whose
atomic steps are the code segments between `await` suspension points.
-/

namespace Watering

/-! ## Geometry: `types.ts` and `position.ts` -/

/-- Embeds `Pos` of `types.ts`: `z.object({ x: z.number(), y: z.number() })`. -/
@[ext]
structure Pos where
  x : ℝ
  y : ℝ

/-- Embeds class `Vec` of `position.ts`. -/
@[ext]
structure Vec where
  x : ℝ
  y : ℝ

/-- Embeds `Position.direction` of `position.ts`: the vector from `this` to `other`. -/
def Pos.direction (a other : Pos) : Vec :=
  { x := other.x - a.x, y := other.y - a.y }

/-- Embeds `Position.add` of `position.ts`. -/
def Pos.add (a : Pos) (vec : Vec) : Pos :=
  { x := a.x + vec.x, y := a.y + vec.y }

/-- Embeds `Vec.add` of `position.ts`. -/
def Vec.add (v other : Vec) : Vec :=
  { x := v.x + other.x, y := v.y + other.y }

/-- Embeds `Vec.scale` of `position.ts`. -/
def Vec.scale (v : Vec) (factor : ℝ) : Vec :=
  { x := v.x * factor, y := v.y * factor }

/-- Embeds `Vec.length` of `position.ts`: `Math.sqrt(x*x + y*y)`. -/
noncomputable def Vec.length (v : Vec) : ℝ :=
  Real.sqrt (v.x * v.x + v.y * v.y)

/-- Embeds `Vec.normalize` of `position.ts`: division by `len = Math.max(0.1, length)`. -/
noncomputable def Vec.normalize (v : Vec) : Vec :=
  { x := v.x / max 0.1 v.length, y := v.y / max 0.1 v.length }

theorem Vec.length_nonneg (v : Vec) : 0 ≤ v.length :=
  Real.sqrt_nonneg _

theorem Vec.length_scale (v : Vec) (c : ℝ) : (v.scale c).length = |c| * v.length := by
  unfold Vec.length Vec.scale
  have h : v.x * c * (v.x * c) + v.y * c * (v.y * c) = (c * c) * (v.x * v.x + v.y * v.y) := by
    ring
  rw [h, Real.sqrt_mul (mul_self_nonneg c), Real.sqrt_mul_self_eq_abs]

theorem max_len_pos (v : Vec) : (0:ℝ) < max 0.1 v.length :=
  lt_max_of_lt_left (by norm_num)

theorem sqrt_quot (x y L : ℝ) (hL : 0 < L) :
    Real.sqrt (x / L * (x / L) + y / L * (y / L)) = Real.sqrt (x * x + y * y) / L := by
  have h : x / L * (x / L) + y / L * (y / L) = (x * x + y * y) / (L * L) := by
    field_simp
  have hx : (0:ℝ) ≤ x * x + y * y := add_nonneg (mul_self_nonneg x) (mul_self_nonneg y)
  rw [h, Real.sqrt_div hx (L * L), Real.sqrt_mul_self hL.le]

theorem Vec.length_normalize (v : Vec) :
    v.normalize.length = v.length / max 0.1 v.length := by
  have h := sqrt_quot v.x v.y (max 0.1 v.length) (max_len_pos v)
  simpa [Vec.normalize, Vec.length] using h

theorem Vec.length_normalize_le_one (v : Vec) : v.normalize.length ≤ 1 := by
  rw [Vec.length_normalize]
  exact div_le_one_of_le₀ (le_max_right _ _) (max_len_pos v).le

/-! ## Robot movement: `robot.ts` -/

/-- Embeds `VELOCITY` of `robot.ts` (pixels per tick). -/
def VELOCITY : ℝ := 10

/-- The command the movement interval of `runRobot` issues on one tick. -/
inductive TickCmd where
  | doneCmd : TickCmd
  | moveCmd : Pos → TickCmd

/-- Embeds one execution of the 300 ms movement interval body of `runRobot`
(`robot.ts`, the `setInterval` callback while `Moving`), given that the
re-fetched state is still `Moving`: computes `direction = here.direction(there)`
and either issues `done` (distance below 1), moves exactly onto the target
(distance below `VELOCITY`), or advances `VELOCITY` units along the
normalized direction. Returns the robot position after the tick and the
issued command. -/
noncomputable def moveTick (pos plantPos : Pos) : Pos × TickCmd :=
  let direction := Pos.direction pos plantPos
  if direction.length < 1 then
    (pos, TickCmd.doneCmd)
  else if direction.length < VELOCITY then
    (Pos.add pos direction, TickCmd.moveCmd (Pos.add pos direction))
  else
    (Pos.add pos ((Vec.normalize direction).scale VELOCITY),
     TickCmd.moveCmd (Pos.add pos ((Vec.normalize direction).scale VELOCITY)))

theorem add_direction (pos plantPos : Pos) : Pos.add pos (Pos.direction pos plantPos) = plantPos := by
  cases pos
  cases plantPos
  simp [Pos.add, Pos.direction]

theorem velocity_step_aux (px py qx qy : ℝ)
    (hV : VELOCITY ≤ Vec.length (Vec.mk (qx - px) (qy - py))) :
    Vec.length
      (Vec.mk
        (qx - (px + (qx - px) / max 0.1 (Vec.length (Vec.mk (qx - px) (qy - py))) * VELOCITY))
        (qy - (py + (qy - py) / max 0.1 (Vec.length (Vec.mk (qx - px) (qy - py))) * VELOCITY)))
      = Vec.length (Vec.mk (qx - px) (qy - py)) - VELOCITY := by
  set L := Vec.length (Vec.mk (qx - px) (qy - py)) with hL
  have hVpos : (0:ℝ) < VELOCITY := by norm_num [VELOCITY]
  have hdpos : (0:ℝ) < L := lt_of_lt_of_le hVpos hV
  have hne : L ≠ 0 := ne_of_gt hdpos
  have hmax : max 0.1 L = L := max_eq_right (le_trans (by norm_num [VELOCITY]) hV)
  rw [hmax]
  have hvec :
      (Vec.mk (qx - (px + (qx - px) / L * VELOCITY)) (qy - (py + (qy - py) / L * VELOCITY)))
      = Vec.scale (Vec.mk (qx - px) (qy - py)) (1 - VELOCITY / L) := by
    ext
    · simp only [Vec.scale]
      field_simp
      ring
    · simp only [Vec.scale]
      field_simp
      ring
  rw [hvec, Vec.length_scale, ← hL]
  have hfrac : VELOCITY / L ≤ 1 := (div_le_one hdpos).mpr hV
  rw [abs_of_nonneg (by linarith)]
  field_simp

theorem direction_after_velocity_step (pos plantPos : Pos)
    (hV : VELOCITY ≤ (Pos.direction pos plantPos).length) :
    (Pos.direction (Pos.add pos ((Vec.normalize (Pos.direction pos plantPos)).scale VELOCITY))
      plantPos).length = (Pos.direction pos plantPos).length - VELOCITY := by
  obtain ⟨px, py⟩ := pos
  obtain ⟨qx, qy⟩ := plantPos
  exact velocity_step_aux px py qx qy hV

/-- C6: while Moving, each 300 ms tick computes the vector from the robot
position to the plant position; when its length is below 1 the robot issues
`done` without moving, when it is below `VELOCITY` the robot moves exactly
onto the target and issues `move`, and otherwise it moves exactly `VELOCITY`
units along the normalized direction so that the remaining distance shrinks
by exactly `VELOCITY` — the robot never overshoots the target. -/
theorem C6_movement_tick_no_overshoot (pos plantPos : Pos) :
    ((Pos.direction pos plantPos).length < 1 →
      moveTick pos plantPos = (pos, TickCmd.doneCmd)) ∧
    (1 ≤ (Pos.direction pos plantPos).length →
      (Pos.direction pos plantPos).length < VELOCITY →
      moveTick pos plantPos = (plantPos, TickCmd.moveCmd plantPos)) ∧
    (VELOCITY ≤ (Pos.direction pos plantPos).length →
      moveTick pos plantPos =
        (Pos.add pos ((Vec.normalize (Pos.direction pos plantPos)).scale VELOCITY),
         TickCmd.moveCmd (Pos.add pos ((Vec.normalize (Pos.direction pos plantPos)).scale VELOCITY))) ∧
      (Pos.direction (moveTick pos plantPos).1 plantPos).length =
        (Pos.direction pos plantPos).length - VELOCITY) := by
  refine ⟨fun h1 => ?_, fun h1 h2 => ?_, fun hV => ?_⟩
  · simp [moveTick, if_pos h1]
  · have hn1 : ¬ (Pos.direction pos plantPos).length < 1 := not_lt.mpr h1
    simp [moveTick, if_neg hn1, if_pos h2, add_direction]
  · have hn1 : ¬ (Pos.direction pos plantPos).length < 1 := by
      apply not_lt.mpr
      calc (1:ℝ) ≤ VELOCITY := by norm_num [VELOCITY]
      _ ≤ _ := hV
    have hn2 : ¬ (Pos.direction pos plantPos).length < VELOCITY := not_lt.mpr hV
    constructor
    · simp [moveTick, if_neg hn1, if_neg hn2]
    · simp only [moveTick, if_neg hn1, if_neg hn2]
      exact direction_after_velocity_step pos plantPos hV

/-- C10: Vec.normalize is total and never divides by zero — it divides by
`max 0.1 length`, so the zero vector normalizes to the zero vector, the
result length is exactly `length / max 0.1 length`, which never exceeds 1,
and the per-tick displacement `VELOCITY * |normalize v|` never exceeds
`VELOCITY`. -/
theorem C10_normalize_total_and_bounded (v : Vec) :
    Vec.normalize (Vec.mk 0 0) = Vec.mk 0 0 ∧
    v.normalize.length = v.length / max 0.1 v.length ∧
    v.normalize.length ≤ 1 ∧
    (v.normalize.scale VELOCITY).length ≤ VELOCITY := by
  refine ⟨?_, Vec.length_normalize v, Vec.length_normalize_le_one v, ?_⟩
  · ext
    · simp [Vec.normalize]
    · simp [Vec.normalize]
  · rw [Vec.length_scale, abs_of_nonneg (by norm_num [VELOCITY] : (0:ℝ) ≤ VELOCITY)]
    calc VELOCITY * v.normalize.length
        ≤ VELOCITY * 1 :=
          mul_le_mul_of_nonneg_left (Vec.length_normalize_le_one v)
            (by norm_num [VELOCITY])
    _ = VELOCITY := mul_one _

theorem direction_length_horizontal (a b : ℝ) (h : a ≤ b) :
    (Pos.direction (Pos.mk a 0) (Pos.mk b 0)).length = b - a := by
  simp only [Pos.direction, Vec.length]
  rw [show (b - a) * (b - a) + ((0:ℝ) - 0) * (0 - 0) = (b - a) ^ 2 by ring]
  exact Real.sqrt_sq (by linarith)

/-- C6 witness, Scenario D: from `(0,0)` toward `(5,0)` with `VELOCITY = 10`,
the next tick moves the robot exactly onto `(5,0)` and issues `move`, and the
following tick issues `done` without moving. -/
theorem C6_movement_tick_no_overshoot_witness :
    moveTick (Pos.mk 0 0) (Pos.mk 5 0) = (Pos.mk 5 0, TickCmd.moveCmd (Pos.mk 5 0)) ∧
    moveTick (Pos.mk 5 0) (Pos.mk 5 0) = (Pos.mk 5 0, TickCmd.doneCmd) := by
  have h5 : (Pos.direction (Pos.mk 0 0) (Pos.mk 5 0)).length = 5 := by
    simpa using direction_length_horizontal 0 5 (by norm_num)
  have h0 : (Pos.direction (Pos.mk 5 0) (Pos.mk 5 0)).length = 0 := by
    simpa using direction_length_horizontal 5 5 (le_refl 5)
  constructor
  · exact (C6_movement_tick_no_overshoot (Pos.mk 0 0) (Pos.mk 5 0)).2.1
      (by rw [h5]; norm_num) (by rw [h5]; norm_num [VELOCITY])
  · exact (C6_movement_tick_no_overshoot (Pos.mk 5 0) (Pos.mk 5 0)).1
      (by rw [h0]; norm_num)

/-! ## Protocol: `protocol.ts` -/

/-- Embeds the `label` field of a `SwarmProtocolType` transition. -/
structure TransitionLabel where
  cmd : String
  logType : List String
  role : String

/-- Embeds one transition of the `SwarmProtocolType` table. -/
structure Transition where
  source : String
  target : String
  label : TransitionLabel

/-- Embeds `SwarmProtocolType` of `@actyx/machine-check` as consumed by `protocol.ts`. -/
structure SwarmProtocolType where
  initial : String
  transitions : List Transition

/-- Embeds `PROTOCOL` of `protocol.ts` verbatim. -/
def PROTOCOL : SwarmProtocolType :=
  { initial := "initial"
    transitions :=
      [ { source := "initial", target := "requested", label := { cmd := "request", logType := ["request"], role := "plant" } }
      , { source := "requested", target := "requested", label := { cmd := "offer", logType := ["offer"], role := "robot" } }
      , { source := "requested", target := "assigned", label := { cmd := "assign", logType := ["assign"], role := "plant" } }
      , { source := "requested", target := "failed", label := { cmd := "fail", logType := ["fail"], role := "robot" } }
      , { source := "assigned", target := "moving", label := { cmd := "start", logType := ["accept"], role := "robot" } }
      , { source := "assigned", target := "failed", label := { cmd := "fail2", logType := ["fail2"], role := "plant" } }
      , { source := "moving", target := "moving", label := { cmd := "move", logType := ["move"], role := "robot" } }
      , { source := "moving", target := "done", label := { cmd := "done", logType := ["finish"], role := "robot" } }
      , { source := "moving", target := "failed", label := { cmd := "fail3", logType := ["fail3"], role := "robot" } }
      ] }

/-- The protocol event payloads of the `Event` namespace of `protocol.ts`. -/
inductive PEvent where
  | request (plantId : String) (position : Pos) (reqId : String)
  | offer (robotId : String) (position : Pos)
  | assign (robotId : String)
  | accept (position : Pos)
  | move (position : Pos)
  | finish (plantId : String)
  | fail (robotId : String)
  | fail2 (robotId : String)
  | fail3 (robotId : String)

/-- A protocol event together with the timestamp its log metadata carries
(`meta.timestampAsDate`, used by the plant machine when folding `finish`). -/
structure TEvent where
  payload : PEvent
  timestamp : ℚ

/-! ## The plant machine (`plant.ts`, `wateringProtocol` variant) -/

/-- Embeds the `RobotWhere` bid entries of the plant machine. -/
structure RobotWhere where
  id : String
  pos : Pos

/-- The states of `PlantMachine`. -/
inductive PlantS where
  | initial
  | requested (plantId : String) (position : Pos) (robots : List RobotWhere)
  | assigned (plantId : String) (position : Pos) (robotId : String)
  | moving (plantId : String) (position : Pos) (robotId : String) (robot : Pos)
  | done (when : ℚ)
  | failed

/-- Embeds the `react` registrations of the plant machine: each arm is one
`X.react([Event.E], Y, reducer)` line; events with no reaction registered on
the current state are discarded by the machine runner, leaving the state
unchanged (the catch-all arm). -/
def plantReact (s : PlantS) (e : TEvent) : PlantS :=
  match s, e.payload with
  | .initial, .request plantId position _ => .requested plantId position []
  | .requested plantId position robots, .offer robotId pos =>
      .requested plantId position (robots ++ [{ id := robotId, pos := pos }])
  | .requested plantId position _, .assign robotId => .assigned plantId position robotId
  | .requested _ _ _, .fail _ => .failed
  | .assigned plantId position robotId, .accept pos => .moving plantId position robotId pos
  | .assigned _ _ _, .fail2 _ => .failed
  | .moving plantId position robotId _, .move pos => .moving plantId position robotId pos
  | .moving _ _ _ _, .finish _ => .done e.timestamp
  | s, _ => s

/-- Folding a protocol instance with the plant machine from its initial state. -/
def plantFold (evs : List TEvent) : PlantS :=
  evs.foldl plantReact PlantS.initial

/-! ## The robot machine (`robot.ts`) -/

/-- The states of `RobotMachine`. -/
inductive RobotS where
  | initial
  | requested (plantId : String) (plantPos : Pos) (robots : List String)
  | assigned (plantId : String) (plantPos : Pos) (robotId : String)
  | moving (plantId : String) (plantPos : Pos) (robotId : String) (robotPos : Pos)
  | done (robot : Pos)
  | failed

/-- Embeds the `react` registrations of the robot machine of `robot.ts`
(including `Moving.reactIntoSelf` for `move` and the `fail3` reaction the
plant machine does not register); unmatched events are discarded. -/
def robotReact (s : RobotS) (e : TEvent) : RobotS :=
  match s, e.payload with
  | .initial, .request plantId position _ => .requested plantId position []
  | .requested plantId plantPos robots, .offer robotId _ =>
      .requested plantId plantPos (robots ++ [robotId])
  | .requested plantId plantPos _, .assign robotId => .assigned plantId plantPos robotId
  | .requested _ _ _, .fail _ => .failed
  | .assigned plantId plantPos robotId, .accept pos => .moving plantId plantPos robotId pos
  | .assigned _ _ _, .fail2 _ => .failed
  | .moving plantId plantPos robotId _, .move pos => .moving plantId plantPos robotId pos
  | .moving _ _ _ robotPos, .finish _ => .done robotPos
  | .moving _ _ _ _, .fail3 _ => .failed
  | s, _ => s

/-- Folding a protocol instance with the robot machine from its initial state. -/
def robotFold (evs : List TEvent) : RobotS :=
  evs.foldl robotReact RobotS.initial

/-- The bid list (robot ids, in fold order) a plant machine state exposes. -/
def PlantS.bids : PlantS → Option (List String)
  | .requested _ _ robots => some (robots.map RobotWhere.id)
  | _ => none

/-- The bid list (robot ids, in fold order) a robot machine state exposes. -/
def RobotS.bids : RobotS → Option (List String)
  | .requested _ _ robots => some robots
  | _ => none

/-- C4: terminal states never transition: the protocol table declares no
transition whose source is `done` or `failed`, and folding any event from a
`done` or `failed` machine state leaves it unchanged in both machines. -/
theorem C4_terminal_states_never_transition :
    (PROTOCOL.transitions.all fun t => t.source != "done" && t.source != "failed") = true ∧
    (∀ (w : ℚ) (e : TEvent), plantReact (PlantS.done w) e = PlantS.done w) ∧
    (∀ e : TEvent, plantReact PlantS.failed e = PlantS.failed) ∧
    (∀ (p : Pos) (e : TEvent), robotReact (RobotS.done p) e = RobotS.done p) ∧
    (∀ e : TEvent, robotReact RobotS.failed e = RobotS.failed) := by
  refine ⟨by decide, ?_, ?_, ?_, ?_⟩
  · intro w e
    obtain ⟨p, ts⟩ := e
    cases p <;> rfl
  · intro e
    obtain ⟨p, ts⟩ := e
    cases p <;> rfl
  · intro q e
    obtain ⟨p, ts⟩ := e
    cases p <;> rfl
  · intro e
    obtain ⟨p, ts⟩ := e
    cases p <;> rfl

/-! ## Fold determinism across the two machines (C3) -/

/-- The simulation relation between plant machine and robot machine states
reached by folding the same event sequence: the two folds stay in matching
states with identical bid ids; the only divergence is `fail3`, which the
robot machine folds to `failed` while the plant machine keeps `moving` —
both sides of that divergence expose no bid list. -/
inductive MachineSim : PlantS → RobotS → Prop where
  | initial : MachineSim .initial .initial
  | requested (pid : String) (pos : Pos) (pid2 : String) (ppos : Pos)
      (robots : List RobotWhere) (robots2 : List String)
      (h : robots.map RobotWhere.id = robots2) :
      MachineSim (.requested pid pos robots) (.requested pid2 ppos robots2)
  | assigned (pid : String) (pos : Pos) (rid : String) (pid2 : String) (ppos : Pos) (rid2 : String) :
      MachineSim (.assigned pid pos rid) (.assigned pid2 ppos rid2)
  | moving (pid : String) (pos : Pos) (rid : String) (rpos : Pos)
      (pid2 : String) (ppos : Pos) (rid2 : String) (rpos2 : Pos) :
      MachineSim (.moving pid pos rid rpos) (.moving pid2 ppos rid2 rpos2)
  | doneDone (w : ℚ) (p : Pos) : MachineSim (.done w) (.done p)
  | failedFailed : MachineSim .failed .failed
  | movingFailed (pid : String) (pos : Pos) (rid : String) (rpos : Pos) :
      MachineSim (.moving pid pos rid rpos) .failed
  | doneFailed (w : ℚ) : MachineSim (.done w) .failed

theorem machineSim_bids {s : PlantS} {r : RobotS} (h : MachineSim s r) :
    s.bids = r.bids := by
  cases h <;> simp_all [PlantS.bids, RobotS.bids]

theorem machineSim_step {s : PlantS} {r : RobotS} (e : TEvent) (h : MachineSim s r) :
    MachineSim (plantReact s e) (robotReact r e) := by
  obtain ⟨p, ts⟩ := e
  cases h <;> cases p <;>
    first
      | exact absurd rfl (by simp_all)
      | (simp only [plantReact, robotReact]
         constructor <;> simp_all)

theorem machineSim_foldl (evs : List TEvent) :
    ∀ {s : PlantS} {r : RobotS}, MachineSim s r →
      MachineSim (evs.foldl plantReact s) (evs.foldl robotReact r) := by
  induction evs with
  | nil => intro s r h; exact h
  | cons e rest ih =>
      intro s r h
      exact ih (machineSim_step e h)

/-- C3: the fold is deterministic and observer-independent: the derived bid
list is a pure function of the folded event sequence, and the plant machine
and the robot machine, folding the same sequence, expose the identical bid
list — the same robot ids in the same order. -/
theorem C3_fold_determinism_bid_lists (evs : List TEvent) :
    (plantFold evs).bids = (robotFold evs).bids :=
  machineSim_bids (machineSim_foldl evs MachineSim.initial)

/-! ## Bid selection (`requestWater` of the plant, `wateringProtocol` variant) -/

/-- Embeds `ENDURANCE` of `plant.ts`: milliseconds the plant takes to consume
one percent of water. -/
def ENDURANCE : ℚ := 500

/-- Embeds `Number.MAX_VALUE`, the initial value of `closestDist`. -/
def MAX_VALUE : ℝ := (2 ^ 53 - 1) * 2 ^ 971

/-- The distance the bid-selection loop computes for one bid:
`Position.fromPos(robot.pos).direction(Position.fromPos(position)).length()`. -/
noncomputable def distTo (position : Pos) (robot : RobotWhere) : ℝ :=
  (Pos.direction robot.pos position).length

/-- Embeds the `for (const robot of state.payload.robots)` loop of
`requestWater`: tracks `closest` and `closestDist`, replacing them whenever a
strictly smaller distance is found. -/
noncomputable def findClosest (position : Pos) :
    Option RobotWhere × ℝ → List RobotWhere → Option RobotWhere × ℝ
  | acc, [] => acc
  | (closest, closestDist), robot :: rest =>
      if distTo position robot < closestDist then
        findClosest position (some robot, distTo position robot) rest
      else
        findClosest position (closest, closestDist) rest

/-- Embeds the decision of the `Requested` branch of `requestWater`: run the
loop from `(undefined, Number.MAX_VALUE)` and assign the closest robot only
when `closest && closestDist < 24 * ENDURANCE * VELOCITY`. -/
noncomputable def assignDecision (position : Pos) (robots : List RobotWhere) : Option String :=
  match findClosest position (none, MAX_VALUE) robots with
  | (some closest, closestDist) =>
      if closestDist < 24 * (ENDURANCE : ℝ) * VELOCITY then some closest.id else none
  | (none, _) => none

theorem findClosest_spec (position : Pos) (l : List RobotWhere) :
    ∀ (c : Option RobotWhere) (d : ℝ),
      (∀ r ∈ l, (findClosest position (c, d) l).2 ≤ distTo position r) ∧
      (findClosest position (c, d) l).2 ≤ d ∧
      (((findClosest position (c, d) l).1 = c ∧ (findClosest position (c, d) l).2 = d) ∨
        ∃ r ∈ l, (findClosest position (c, d) l).1 = some r ∧
          (findClosest position (c, d) l).2 = distTo position r) := by
  induction l with
  | nil =>
      intro c d
      exact ⟨fun r hr => absurd hr (List.not_mem_nil r), le_refl d, Or.inl ⟨rfl, rfl⟩⟩
  | cons robot rest ih =>
      intro c d
      by_cases h : distTo position robot < d
      · have hstep : findClosest position (c, d) (robot :: rest)
            = findClosest position (some robot, distTo position robot) rest := by
          simp [findClosest, if_pos h]
        obtain ⟨A, B, C⟩ := ih (some robot) (distTo position robot)
        rw [hstep]
        refine ⟨?_, le_trans B h.le, ?_⟩
        · intro r hr
          rcases List.mem_cons.mp hr with hr | hr
          · rw [hr] at *; exact B
          · exact A r hr
        · rcases C with ⟨h1, h2⟩ | ⟨r, hr, h1, h2⟩
          · exact Or.inr ⟨robot, List.mem_cons_self robot rest, h1, h2⟩
          · exact Or.inr ⟨r, List.mem_cons_of_mem robot hr, h1, h2⟩
      · have hstep : findClosest position (c, d) (robot :: rest)
            = findClosest position (c, d) rest := by
          simp [findClosest, if_neg h]
        obtain ⟨A, B, C⟩ := ih c d
        rw [hstep]
        refine ⟨?_, B, ?_⟩
        · intro r hr
          rcases List.mem_cons.mp hr with hr | hr
          · rw [hr]
            exact le_trans B (not_lt.mp h)
          · exact A r hr
        · rcases C with ⟨h1, h2⟩ | ⟨r, hr, h1, h2⟩
          · exact Or.inl ⟨h1, h2⟩
          · exact Or.inr ⟨r, List.mem_cons_of_mem robot hr, h1, h2⟩

/-- C1: when the plant folds a `Requested` state with a non-empty bid list,
the `requestWater` loop selects a bid at minimum Euclidean distance from the
plant position and issues `assign` for that robot exactly when the minimum
distance is below the maximum serviceable distance
`24 * ENDURANCE * VELOCITY`; otherwise it issues no assign. -/
theorem C1_assign_closest_bid_within_range (position : Pos) (robots : List RobotWhere)
    (hne : robots ≠ [])
    (hbound : ∀ r ∈ robots, distTo position r < MAX_VALUE) :
    ∃ r₀ ∈ robots,
      (∀ r ∈ robots, distTo position r₀ ≤ distTo position r) ∧
      assignDecision position robots =
        (if distTo position r₀ < 24 * (ENDURANCE : ℝ) * VELOCITY then some r₀.id else none) := by
  obtain ⟨A, B, C⟩ := findClosest_spec position robots none MAX_VALUE
  rcases C with ⟨h1, h2⟩ | ⟨r₀, hr₀, h1, h2⟩
  · obtain ⟨r, hr⟩ := List.exists_mem_of_ne_nil robots hne
    have := lt_of_le_of_lt (A r hr) (hbound r hr)
    rw [h2] at this
    exact absurd this (lt_irrefl _)
  · refine ⟨r₀, hr₀, ?_, ?_⟩
    · intro r hr
      rw [← h2]
      exact A r hr
    · have hres : findClosest position (none, MAX_VALUE) robots = (some r₀, distTo position r₀) :=
        Prod.ext h1 h2
      simp [assignDecision, hres]

theorem length_eval (x y c : ℝ) (h : 0 ≤ c) (hc : x * x + y * y = c * c) :
    Vec.length (Vec.mk x y) = c := by
  unfold Vec.length
  rw [hc, Real.sqrt_mul_self h]

/-- C1 witness, Scenario B: two robots offered at distances 30 and 10 (in
that arrival order) from the plant at the origin; the minimum is within the
serviceable range, and the plant assigns the distance-10 robot. -/
theorem C1_assign_closest_bid_within_range_witness :
    (∃ r₀ ∈ [RobotWhere.mk "r30" (Pos.mk 30 0), RobotWhere.mk "r10" (Pos.mk 10 0)],
      (∀ r ∈ [RobotWhere.mk "r30" (Pos.mk 30 0), RobotWhere.mk "r10" (Pos.mk 10 0)],
        distTo (Pos.mk 0 0) r₀ ≤ distTo (Pos.mk 0 0) r) ∧
      assignDecision (Pos.mk 0 0) [RobotWhere.mk "r30" (Pos.mk 30 0), RobotWhere.mk "r10" (Pos.mk 10 0)] =
        (if distTo (Pos.mk 0 0) r₀ < 24 * (ENDURANCE : ℝ) * VELOCITY then some r₀.id else none)) ∧
    assignDecision (Pos.mk 0 0) [RobotWhere.mk "r30" (Pos.mk 30 0), RobotWhere.mk "r10" (Pos.mk 10 0)] =
      some "r10" := by
  have h30 : distTo (Pos.mk 0 0) (RobotWhere.mk "r30" (Pos.mk 30 0)) = 30 := by
    unfold distTo Pos.direction
    exact length_eval _ _ 30 (by norm_num) (by norm_num)
  have h10 : distTo (Pos.mk 0 0) (RobotWhere.mk "r10" (Pos.mk 10 0)) = 10 := by
    unfold distTo Pos.direction
    exact length_eval _ _ 10 (by norm_num) (by norm_num)
  have hf : findClosest (Pos.mk 0 0) (none, MAX_VALUE)
      [RobotWhere.mk "r30" (Pos.mk 30 0), RobotWhere.mk "r10" (Pos.mk 10 0)]
      = (some (RobotWhere.mk "r10" (Pos.mk 10 0)), 10) := by
    simp only [findClosest, h30, h10]
    norm_num [MAX_VALUE]
  have hassign : assignDecision (Pos.mk 0 0)
      [RobotWhere.mk "r30" (Pos.mk 30 0), RobotWhere.mk "r10" (Pos.mk 10 0)] = some "r10" := by
    simp only [assignDecision, hf]
    norm_num [ENDURANCE, VELOCITY]
  refine ⟨?_, hassign⟩
  apply C1_assign_closest_bid_within_range
  · simp
  · intro r hr
    rcases List.mem_cons.mp hr with hr | hr
    · rw [hr, h30]
      norm_num [MAX_VALUE]
    · rcases List.mem_cons.mp hr with hr | hr
      · rw [hr, h10]
        norm_num [MAX_VALUE]
      · exact absurd hr (List.not_mem_nil r)

/-! ## The plant main loop (`runPlant` of `plant.ts`): hydration and death -/

/-- The events the 1 s tick of `runPlant` publishes on the plant tag. -/
inductive PlantEv where
  | waterLevelEv (level : ℚ)
  | waterRequestedEv
  | diedEv
deriving DecidableEq

/-- The water level `runPlant` computes on a tick:
`100 - (now - lastWatered) / ENDURANCE` (all times in milliseconds). -/
def waterLevelAt (lastWatered now : ℚ) : ℚ :=
  100 - (now - lastWatered) / ENDURANCE

/-- Embeds the `for (;;)` main loop of `runPlant` (`plant.ts`) ticking every
1000 ms, as the list of events it publishes: each tick publishes the water
level; when the level is ≤ 0 it publishes `died` and returns (no further
event, no further tick); when the level is below 25 and no request is open it
starts `requestWater`, which publishes `waterRequested` in the same turn.
`fuel` bounds the number of ticks observed; Scenario A holds `lastWatered`
fixed because no water is delivered. -/
def runPlantLoop (lastWatered now : ℚ) (currentRequest : Bool) : ℕ → List PlantEv
  | 0 => []
  | fuel + 1 =>
      PlantEv.waterLevelEv (waterLevelAt lastWatered now) ::
        (if waterLevelAt lastWatered now ≤ 0 then [PlantEv.diedEv]
         else if waterLevelAt lastWatered now < 25 ∧ currentRequest = false then
           PlantEv.waterRequestedEv :: runPlantLoop lastWatered (now + 1000) true fuel
         else runPlantLoop lastWatered (now + 1000) currentRequest fuel)

theorem runPlantLoop_succ (lastWatered now : ℚ) (b : Bool) (fuel : ℕ) :
    runPlantLoop lastWatered now b (fuel + 1) =
      PlantEv.waterLevelEv (waterLevelAt lastWatered now) ::
        (if waterLevelAt lastWatered now ≤ 0 then [PlantEv.diedEv]
         else if waterLevelAt lastWatered now < 25 ∧ b = false then
           PlantEv.waterRequestedEv :: runPlantLoop lastWatered (now + 1000) true fuel
         else runPlantLoop lastWatered (now + 1000) b fuel) := rfl

theorem runPlantLoop_dead (lastWatered now : ℚ) (b : Bool) (fuel : ℕ)
    (h : waterLevelAt lastWatered now ≤ 0) :
    runPlantLoop lastWatered now b (fuel + 1) =
      [PlantEv.waterLevelEv (waterLevelAt lastWatered now), PlantEv.diedEv] := by
  rw [runPlantLoop_succ, if_pos h]

theorem runPlantLoop_died_first (lastWatered : ℚ) :
    ∀ (n : ℕ) (now : ℚ) (b : Bool),
      (∀ j : ℕ, j < n → 0 < waterLevelAt lastWatered (now + 1000 * j)) →
      waterLevelAt lastWatered (now + 1000 * n) ≤ 0 →
      (PlantEv.diedEv ∈ runPlantLoop lastWatered now b (n + 1)) ∧
      (PlantEv.diedEv ∉ runPlantLoop lastWatered now b n) := by
  intro n
  induction n with
  | zero =>
      intro now b _ hdead
      rw [show now + 1000 * ((0:ℕ):ℚ) = now by push_cast; ring] at hdead
      constructor
      · rw [runPlantLoop_dead lastWatered now b 0 hdead]
        simp
      · simp [runPlantLoop]
  | succ n ih =>
      intro now b halive hdead
      have h0 : 0 < waterLevelAt lastWatered now := by
        have := halive 0 (Nat.succ_pos n)
        rwa [show now + 1000 * ((0:ℕ):ℚ) = now by push_cast; ring] at this
      have halive' : ∀ (b' : Bool), ∀ j : ℕ, j < n →
          0 < waterLevelAt lastWatered (now + 1000 + 1000 * j) := by
        intro _ j hj
        have := halive (j + 1) (Nat.succ_lt_succ hj)
        rwa [show now + 1000 * ((j + 1 : ℕ):ℚ) = now + 1000 + 1000 * j by push_cast; ring] at this
      have hdead' : waterLevelAt lastWatered (now + 1000 + 1000 * n) ≤ 0 := by
        rwa [show now + 1000 * ((n + 1 : ℕ):ℚ) = now + 1000 + 1000 * n by push_cast; ring] at hdead
      have hnotle : ¬ waterLevelAt lastWatered now ≤ 0 := not_le.mpr h0
      constructor
      · show PlantEv.diedEv ∈ runPlantLoop lastWatered now b (n + 1 + 1)
        rw [runPlantLoop_succ, if_neg hnotle]
        by_cases hreq : waterLevelAt lastWatered now < 25 ∧ b = false
        · rw [if_pos hreq]
          have := (ih (now + 1000) true (halive' true) hdead').1
          simp [this]
        · rw [if_neg hreq]
          have := (ih (now + 1000) b (halive' b) hdead').1
          simp [this]
      · show PlantEv.diedEv ∉ runPlantLoop lastWatered now b (n + 1)
        rw [runPlantLoop_succ, if_neg hnotle]
        by_cases hreq : waterLevelAt lastWatered now < 25 ∧ b = false
        · rw [if_pos hreq]
          have := (ih (now + 1000) true (halive' true) hdead').2
          simp [this]
        · rw [if_neg hreq]
          have := (ih (now + 1000) b (halive' b) hdead').2
          simp [this]

theorem runPlantLoop_stops (lastWatered : ℚ) :
    ∀ (n : ℕ) (now : ℚ) (b : Bool) (m₁ m₂ : ℕ),
      (∀ j : ℕ, j < n → 0 < waterLevelAt lastWatered (now + 1000 * j)) →
      waterLevelAt lastWatered (now + 1000 * n) ≤ 0 →
      runPlantLoop lastWatered now b (n + 1 + m₁) = runPlantLoop lastWatered now b (n + 1 + m₂) := by
  intro n
  induction n with
  | zero =>
      intro now b m₁ m₂ _ hdead
      rw [show now + 1000 * ((0:ℕ):ℚ) = now by push_cast; ring] at hdead
      rw [show 0 + 1 + m₁ = m₁ + 1 by omega, show 0 + 1 + m₂ = m₂ + 1 by omega,
        runPlantLoop_dead lastWatered now b m₁ hdead, runPlantLoop_dead lastWatered now b m₂ hdead]
  | succ n ih =>
      intro now b m₁ m₂ halive hdead
      have h0 : 0 < waterLevelAt lastWatered now := by
        have := halive 0 (Nat.succ_pos n)
        rwa [show now + 1000 * ((0:ℕ):ℚ) = now by push_cast; ring] at this
      have halive' : ∀ j : ℕ, j < n → 0 < waterLevelAt lastWatered (now + 1000 + 1000 * j) := by
        intro j hj
        have := halive (j + 1) (Nat.succ_lt_succ hj)
        rwa [show now + 1000 * ((j + 1 : ℕ):ℚ) = now + 1000 + 1000 * j by push_cast; ring] at this
      have hdead' : waterLevelAt lastWatered (now + 1000 + 1000 * n) ≤ 0 := by
        rwa [show now + 1000 * ((n + 1 : ℕ):ℚ) = now + 1000 + 1000 * n by push_cast; ring] at hdead
      have hnotle : ¬ waterLevelAt lastWatered now ≤ 0 := not_le.mpr h0
      have e₁ : n + 1 + 1 + m₁ = (n + 1 + m₁) + 1 := by omega
      have e₂ : n + 1 + 1 + m₂ = (n + 1 + m₂) + 1 := by omega
      rw [e₁, e₂, runPlantLoop_succ, runPlantLoop_succ, if_neg hnotle, if_neg hnotle]
      by_cases hreq : waterLevelAt lastWatered now < 25 ∧ b = false
      · rw [if_pos hreq, if_pos hreq, ih (now + 1000) true m₁ m₂ halive' hdead']
      · rw [if_neg hreq, if_neg hreq, ih (now + 1000) b m₁ m₂ halive' hdead']

theorem scenarioA_alive (j : ℕ) (hj : j < 50) :
    0 < waterLevelAt 0 (0 + 1000 * j) := by
  unfold waterLevelAt ENDURANCE
  have hq : ((j:ℚ)) < 50 := by exact_mod_cast hj
  have : (0 + 1000 * (j:ℚ) - 0) / 500 = 2 * j := by
    field_simp
    ring
  rw [this]
  linarith

theorem scenarioA_dead : waterLevelAt 0 (0 + 1000 * ((50:ℕ):ℚ)) ≤ 0 := by
  unfold waterLevelAt ENDURANCE
  norm_num

/-- C5: a tick whose computed water level `100 − elapsed/ENDURANCE` is ≤ 0
publishes the level and then `died`, and the loop stops permanently — the
emitted list is independent of any remaining fuel, so no further tick runs
and no further event is published. Scenario A: `ENDURANCE = 500`, plant
created at t = 0, no water delivered: hydration stays positive at the ticks
t = 0, 1000, …, 49000, reaches exactly 0 at t = 50000, the tick at t = 50000
(the 51st) emits `died` while no earlier tick does, and running the loop
with any amount of extra fuel emits nothing further. -/
theorem C5_died_tick_is_final (lastWatered now : ℚ) (b : Bool) (fuel : ℕ)
    (h : waterLevelAt lastWatered now ≤ 0) :
    runPlantLoop lastWatered now b (fuel + 1) =
      [PlantEv.waterLevelEv (waterLevelAt lastWatered now), PlantEv.diedEv] ∧
    (∀ j : ℕ, j < 50 → 0 < waterLevelAt 0 (0 + 1000 * j)) ∧
    waterLevelAt 0 50000 = 0 ∧
    (PlantEv.diedEv ∈ runPlantLoop 0 0 false 51) ∧
    (PlantEv.diedEv ∉ runPlantLoop 0 0 false 50) ∧
    (∀ m₁ m₂ : ℕ, runPlantLoop 0 0 false (51 + m₁) = runPlantLoop 0 0 false (51 + m₂)) := by
  have hfirst := runPlantLoop_died_first 0 50 0 false scenarioA_alive scenarioA_dead
  refine ⟨runPlantLoop_dead lastWatered now b fuel h, scenarioA_alive, ?_, hfirst.1, hfirst.2, ?_⟩
  · unfold waterLevelAt ENDURANCE
    norm_num
  · intro m₁ m₂
    rw [show 51 + m₁ = 50 + 1 + m₁ by omega, show 51 + m₂ = 50 + 1 + m₂ by omega]
    exact runPlantLoop_stops 0 50 0 false m₁ m₂ scenarioA_alive scenarioA_dead

/-- C5 witness: concrete dead tick — a plant last watered at time 0 observed
at t = 60000 ms has level −20 ≤ 0, and that tick emits exactly the level and
`died` regardless of remaining fuel. -/
theorem C5_died_tick_is_final_witness :
    runPlantLoop 0 60000 false 37 =
      [PlantEv.waterLevelEv (waterLevelAt 0 60000), PlantEv.diedEv] :=
  (C5_died_tick_is_final 0 60000 false 36
    (by unfold waterLevelAt ENDURANCE; norm_num)).1

/-! ## The request coordinator as a labelled transition system (C2) -/

/-- The events the coordinator publishes on the plant tag, with request ids
made explicit (fresh ids are drawn from a counter, standing in for UUIDs). -/
inductive CoordEv where
  | waterLevelEv (level : ℚ)
  | waterRequestedEv (reqId : ℕ)
  | waterReceivedEv
  | diedEv
deriving DecidableEq

/-- The mutable state of `runPlant` visible to the interleaving of the 1 s
tick loop with the `requestWater` tasks it spawns: the two open-request
markers, the set of `waterRequested` publishes whose `await` has not yet
resumed (between the publish call and the assignment to `currentRequest`),
the list of published events, a fresh-id counter and the clock. -/
structure CoordSt where
  currentRequest : Option ℕ
  hasRequested : Option ℕ
  pending : List ℕ
  published : List CoordEv
  nextId : ℕ
  lastWatered : ℚ
  now : ℚ
  alive : Bool
deriving DecidableEq

/-- Labels of the coordinator transition system. -/
inductive CoordLabel where
  | tick
  | publishResolved (reqId : ℕ)
  | requestDone (reqId : ℕ)

/-- One atomic step of `runPlant`: a `tick` is the synchronous segment of the
main loop body (compute level, publish it, die, or — when the level is below
the threshold and `currentRequest` is unset — call `requestWater`, whose
fresh-id `waterRequested` publish starts synchronously before the loop
sleeps); `publishResolved` is the `requestWater` continuation after its
publish `await`, which sets `currentRequest` and `hasRequested`;
`requestDone` is the `requestWater` continuation observing `Done`, which
publishes `waterReceived` and clears both markers. -/
inductive CoordStep : CoordSt → CoordLabel → CoordSt → Prop where
  | tickDie (s : CoordSt) (halive : s.alive = true)
      (hlvl : waterLevelAt s.lastWatered s.now ≤ 0) :
      CoordStep s .tick
        { s with
            published := s.published ++
              [.waterLevelEv (waterLevelAt s.lastWatered s.now), .diedEv]
            alive := false }
  | tickRequest (s : CoordSt) (halive : s.alive = true)
      (hlvl0 : ¬ waterLevelAt s.lastWatered s.now ≤ 0)
      (hlvl25 : waterLevelAt s.lastWatered s.now < 25)
      (hnoreq : s.currentRequest = none) :
      CoordStep s .tick
        { s with
            published := s.published ++
              [.waterLevelEv (waterLevelAt s.lastWatered s.now), .waterRequestedEv s.nextId]
            pending := s.pending ++ [s.nextId]
            nextId := s.nextId + 1
            now := s.now + 1000 }
  | tickIdle (s : CoordSt) (halive : s.alive = true)
      (hlvl0 : ¬ waterLevelAt s.lastWatered s.now ≤ 0)
      (hcond : ¬ (waterLevelAt s.lastWatered s.now < 25 ∧ s.currentRequest = none)) :
      CoordStep s .tick
        { s with
            published := s.published ++ [.waterLevelEv (waterLevelAt s.lastWatered s.now)]
            now := s.now + 1000 }
  | publishResolved (s : CoordSt) (r : ℕ) (hmem : r ∈ s.pending) :
      CoordStep s (.publishResolved r)
        { s with
            pending := s.pending.erase r
            currentRequest := some r
            hasRequested := some r }
  | requestDone (s : CoordSt) (r : ℕ) (hcur : s.currentRequest = some r) :
      CoordStep s (.requestDone r)
        { s with
            published := s.published ++ [.waterReceivedEv]
            currentRequest := none
            hasRequested := none
            lastWatered := s.now }

/-- Reachability in the coordinator transition system. -/
inductive CoordReach : CoordSt → CoordSt → Prop where
  | refl (s : CoordSt) : CoordReach s s
  | step (s t u : CoordSt) (l : CoordLabel) (h : CoordReach s t) (hstep : CoordStep t l u) :
      CoordReach s u

/-- The two open-request markers of `runPlant` stay in sync: whenever
`currentRequest` is unset, `hasRequested` is unset too (they are assigned and
cleared together). -/
def MarkerSync (s : CoordSt) : Prop :=
  s.currentRequest = none → s.hasRequested = none

theorem markerSync_step {s t : CoordSt} {l : CoordLabel}
    (hstep : CoordStep s l t) (hs : MarkerSync s) : MarkerSync t := by
  cases hstep <;> simp_all [MarkerSync]

theorem markerSync_reach {s t : CoordSt} (h : CoordReach s t) (hs : MarkerSync s) :
    MarkerSync t := by
  induction h with
  | refl => exact hs
  | step t u l h hstep ih => exact markerSync_step hstep ih

/-- C2: for every interleaving of the 1 s hydration ticks with the
concurrently running `requestWater` tasks, whenever a step publishes a fresh
`waterRequested` event — i.e. creates a new protocol instance — both
open-request markers of the coordinator are unset at that step: `runPlant`
never creates a new request instance while `currentRequest` or
`hasRequested` is set. -/
theorem C2_no_new_request_while_marker_set
    (s0 s t : CoordSt) (l : CoordLabel) (r : ℕ)
    (hsync : MarkerSync s0)
    (hreach : CoordReach s0 s)
    (hstep : CoordStep s l t)
    (hnew : CoordEv.waterRequestedEv r ∈ t.published)
    (hold : CoordEv.waterRequestedEv r ∉ s.published) :
    s.currentRequest = none ∧ s.hasRequested = none := by
  have hs : MarkerSync s := markerSync_reach hreach hsync
  cases hstep with
  | tickDie halive hlvl =>
      exfalso
      rcases List.mem_append.mp hnew with h | h
      · exact hold h
      · simp at h
  | tickRequest halive hlvl0 hlvl25 hnoreq =>
      exact ⟨hnoreq, hs hnoreq⟩
  | tickIdle halive hlvl0 hcond =>
      exfalso
      rcases List.mem_append.mp hnew with h | h
      · exact hold h
      · simp at h
  | publishResolved r hmem =>
      exact absurd hnew hold
  | requestDone r hcur =>
      exfalso
      rcases List.mem_append.mp hnew with h | h
      · exact hold h
      · simp at h

/-- C2 witness: a concrete coordinator state (level 20, no open request)
takes the request-creating tick, and the theorem yields that both markers
are unset at that step. -/
theorem C2_no_new_request_while_marker_set_witness :
    (CoordSt.mk none none [] [] 0 0 40000 true).currentRequest = none ∧
    (CoordSt.mk none none [] [] 0 0 40000 true).hasRequested = none := by
  have hlvl0 : ¬ waterLevelAt 0 40000 ≤ 0 := by
    unfold waterLevelAt ENDURANCE
    norm_num
  have hlvl25 : waterLevelAt 0 40000 < 25 := by
    unfold waterLevelAt ENDURANCE
    norm_num
  refine C2_no_new_request_while_marker_set
    (CoordSt.mk none none [] [] 0 0 40000 true)
    (CoordSt.mk none none [] [] 0 0 40000 true)
    { CoordSt.mk none none [] [] 0 0 40000 true with
        published := [CoordEv.waterLevelEv (waterLevelAt 0 40000), CoordEv.waterRequestedEv 0]
        pending := [0]
        nextId := 0 + 1
        now := 40000 + 1000 }
    CoordLabel.tick 0
    (fun _ => rfl)
    (CoordReach.refl _)
    (CoordStep.tickRequest (CoordSt.mk none none [] [] 0 0 40000 true) rfl hlvl0 hlvl25 rfl)
    (by simp) (by simp)

/-! ## The robot mission loop (`runRobot` of `robot.ts`): bid timeout (C7) -/

/-- Whether a robot machine state is the `requested` state (`state.is(Requested)`). -/
def RobotS.isRequested : RobotS → Bool
  | .requested _ _ _ => true
  | _ => false

/-- Whether a robot machine state is the `moving` state (`state.is(Moving)`). -/
def RobotS.isMoving : RobotS → Bool
  | .moving _ _ _ _ => true
  | _ => false

/-- The visible actions of one iteration of the `for await (const state of
machine)` body in the mission branch of `runRobot`. -/
inductive RAction where
  | offerCmd (robotId : String) (position : Pos)
  | clearTimer
  | startCmd (position : Pos)
  | publishMissionEv
  | breakLoop
  | startMoving
  | publishIdleEv

/-- The actions of the non-`Requested` branches of the mission loop body:
`Assigned` to self issues `start` and publishes the `mission` event,
`Assigned` to another robot breaks, `Moving` starts the movement interval,
`Done` publishes `idle` and breaks, `Failed` breaks. -/
def stateActions (id : String) (pos : Pos) : RobotS → List RAction
  | .assigned _ _ robotId =>
      if robotId = id then [RAction.startCmd pos, RAction.publishMissionEv]
      else [RAction.breakLoop]
  | .moving _ _ _ _ => [RAction.startMoving]
  | .done _ => [RAction.publishIdleEv, RAction.breakLoop]
  | .failed => [RAction.breakLoop]
  | .initial => []
  | .requested _ _ _ => []

/-- Embeds one iteration of the mission loop body of `runRobot`: on a
`Requested` state it offers when its id is absent from the bid list and
otherwise arms the single-shot `waitForAccept` timer expiring 1000 ms later
(and then `continue`s); on any other state it first clears an armed
`waitForAccept` timer and only then performs that state's actions. Returns
the new timer state and the ordered action list. -/
def missionStep (id : String) (pos : Pos) (waitForAccept : Option ℚ) (now : ℚ) :
    RobotS → Option ℚ × List RAction
  | .requested _ _ robots =>
      if id ∈ robots then (some (now + 1000), [])
      else (waitForAccept, [RAction.offerCmd id pos])
  | s =>
      (none,
       (match waitForAccept with
        | some _ => [RAction.clearTimer]
        | none => []) ++ stateActions id pos s)

open Classical in
/-- Embeds the expiry of the `waitForAccept` timer: the callback
`() => s.commands()?.fail({ robotId: id })` issues `fail` only when the timer
is still armed at its expiry instant and the machine state is still the
snapshot `s` the callback captured (`commands()` of a superseded state is
undefined). -/
noncomputable def timerFire (id : String) (waitForAccept : Option ℚ) (t : ℚ)
    (armedState current : RobotS) : List PEvent :=
  match waitForAccept with
  | some expiry => if t = expiry ∧ current = armedState then [PEvent.fail id] else []
  | none => []

/-- C7: a robot present in the `Requested` bid list but not yet assigned arms
exactly one single-shot timer expiring 1000 ms later and issues no command in
that iteration; on reaching any state other than `Requested` an armed timer
is cleared, and the clear precedes every command of the new state (no state
action list contains the clear, it is always prepended). Scenario C: after
`request` and the robot's own `offer`, the fold is `Requested` with the robot
listed, the timer is armed for 1000 ms; with no further state change it fires
and issues `fail`, and folding that `fail` makes the instance `Failed`. -/
theorem C7_bid_timeout_arms_and_clears (id : String) (pos : Pos)
    (waitForAccept : Option ℚ) (now τ : ℚ)
    (plantId : String) (plantPos : Pos) (robots : List String) (s : RobotS)
    (hmem : id ∈ robots) (hnotreq : s.isRequested = false) :
    missionStep id pos waitForAccept now (.requested plantId plantPos robots)
      = (some (now + 1000), []) ∧
    missionStep id pos (some τ) now s = (none, RAction.clearTimer :: stateActions id pos s) ∧
    RAction.clearTimer ∉ stateActions id pos s ∧
    robotFold [TEvent.mk (.request "p" (Pos.mk 1 2) "q") 0, TEvent.mk (.offer "r1" (Pos.mk 3 4)) 0]
      = .requested "p" (Pos.mk 1 2) ["r1"] ∧
    missionStep "r1" (Pos.mk 3 4) none 0 (.requested "p" (Pos.mk 1 2) ["r1"])
      = (some (0 + 1000), []) ∧
    timerFire "r1" (some (0 + 1000)) (0 + 1000)
      (.requested "p" (Pos.mk 1 2) ["r1"]) (.requested "p" (Pos.mk 1 2) ["r1"])
      = [PEvent.fail "r1"] ∧
    robotFold [TEvent.mk (.request "p" (Pos.mk 1 2) "q") 0, TEvent.mk (.offer "r1" (Pos.mk 3 4)) 0,
        TEvent.mk (.fail "r1") 1000]
      = .failed := by
  refine ⟨?_, ?_, ?_, rfl, ?_, ?_, rfl⟩
  · simp only [missionStep]
    rw [if_pos hmem]
  · cases s <;> simp_all [missionStep, stateActions, RobotS.isRequested]
  · cases s with
    | assigned a b c =>
        simp only [stateActions]
        by_cases hc : c = id
        · rw [if_pos hc]
          simp
        · rw [if_neg hc]
          simp
    | _ => simp [stateActions]
  · simp only [missionStep]
    rw [if_pos (by simp : "r1" ∈ ["r1"])]
  · simp [timerFire]

/-- C7 witness: concrete instantiation — robot `x` listed in the bid list
arms a timer for `now + 1000` without commanding, and on a `Failed` state an
armed timer is cleared before the break action. -/
theorem C7_bid_timeout_arms_and_clears_witness :
    missionStep "x" (Pos.mk 0 0) none 7 (.requested "p2" (Pos.mk 9 9) ["x"])
      = (some (7 + 1000), []) ∧
    missionStep "x" (Pos.mk 0 0) (some 5) 7 RobotS.failed
      = (none, [RAction.clearTimer, RAction.breakLoop]) := by
  have h := C7_bid_timeout_arms_and_clears "x" (Pos.mk 0 0) none 7 5 "p2" (Pos.mk 9 9) ["x"]
    RobotS.failed (by simp) rfl
  exact ⟨h.1, h.2.1⟩

/-! ## Stale movement commands are dropped (C9) -/

/-- Embeds the body of the movement `setInterval` of `runRobot` including its
stale-state guard: it re-fetches the latest folded state (`machine.actual()`)
and, only when that state is still `Moving`, issues the `done` or `move`
command of the movement rule (the commands append a `finish` or `move` event
with the log timestamp `ts`); otherwise it returns without emitting. -/
noncomputable def movementTick (pos : Pos) (ts : ℚ) (s2 : RobotS) : List TEvent :=
  match s2 with
  | .moving plantId plantPos _ _ =>
      (match (moveTick pos plantPos).2 with
       | TickCmd.doneCmd => [TEvent.mk (.finish plantId) ts]
       | TickCmd.moveCmd p => [TEvent.mk (.move p) ts])
  | _ => []

/-- C9: a movement tick built against a stale snapshot is a silent no-op —
when the re-fetched folded state is no longer `Moving` the tick emits no
event, and folding its (empty) output into any instance state leaves that
state unchanged. -/
theorem C9_stale_command_is_noop (pos : Pos) (ts : ℚ) (s2 : RobotS)
    (hstale : s2.isMoving = false) :
    movementTick pos ts s2 = [] ∧
    ∀ s : RobotS, (movementTick pos ts s2).foldl robotReact s = s := by
  have hempty : movementTick pos ts s2 = [] := by
    cases s2 <;> simp_all [movementTick, RobotS.isMoving]
  refine ⟨hempty, fun s => ?_⟩
  rw [hempty]
  rfl

/-- C9 witness: a tick whose re-fetched state is `Failed` emits nothing, and
an `Assigned` instance state is unchanged by folding that empty output. -/
theorem C9_stale_command_is_noop_witness :
    movementTick (Pos.mk 0 0) 0 RobotS.failed = [] ∧
    (movementTick (Pos.mk 0 0) 0 RobotS.failed).foldl robotReact
      (RobotS.assigned "p" (Pos.mk 1 1) "r") = RobotS.assigned "p" (Pos.mk 1 1) "r" := by
  have h := C9_stale_command_is_noop (Pos.mk 0 0) 0 RobotS.failed rfl
  exact ⟨h.1, h.2 (RobotS.assigned "p" (Pos.mk 1 1) "r")⟩

/-! ## Restart recovery of the robot (C8) -/

/-- The events on the robot's own tag (`robot` and `robot:<id>`): its
`created`, `mission` and `idle` events, and the protocol `move` events the
`move` command cross-tags onto the robot tag. -/
inductive ROEvent where
  | createdEv (pos : Pos)
  | missionEv (mission : String)
  | idleEv
  | moveEv (position : Pos)

/-- Embeds the first startup query of `runRobot`: the payload of the first
`created` event (`.at(0)`). -/
def createdPos (hist : List ROEvent) : Option Pos :=
  (hist.filterMap fun e =>
    match e with
    | .createdEv p => some p
    | _ => none).head?

/-- Embeds the second startup query of `runRobot`:
`AGGREGATE LAST(_.mission)` over the robot's `mission` events (`idle` events
carry no mission tag and are not consulted). -/
def lastMission (hist : List ROEvent) : Option String :=
  (hist.filterMap fun e =>
    match e with
    | .missionEv m => some m
    | _ => none).getLast?

/-- The protocol events the machine runner started on the robot's own tag
(`createMachineRunner(actyx, myTag, RobotInitial, undefined)`) parses out of
that stream: only the cross-tagged `move` events; `created`, `mission` and
`idle` are not protocol event types. No `request` event is ever tagged with
the robot tag, so this stream contains nothing the initial state reacts to. -/
def ownTagProtocolEvents (hist : List ROEvent) : List TEvent :=
  hist.filterMap fun e =>
    match e with
    | .moveEv p => some (TEvent.mk (.move p) 0)
    | _ => none

/-- The `robotPos` payload field tested by `'robotPos' in payload` in the
recovery loop of `runRobot` (only the `Moving` state payload carries it). -/
def RobotS.robotPosField : RobotS → Option Pos
  | .moving _ _ _ robotPos => some robotPos
  | _ => none

/-- Embeds the startup recovery of `runRobot` (`robot.ts` lines 114–145): the
position comes from the first `created` event; when a last `mission` exists,
one state of the machine over the robot's own tag is folded, the mission is
reset to `undefined` when that state `is(RobotInitial)`, and the position is
taken from the state payload when it has a `robotPos` field. Returns the
`{position, mission}` pair the loop resumes with. -/
def recoverState (hist : List ROEvent) : Option Pos × Option String :=
  match lastMission hist with
  | none => (createdPos hist, none)
  | some m =>
      match robotFold (ownTagProtocolEvents hist) with
      | .initial => (createdPos hist, none)
      | s =>
          (match s.robotPosField with
           | some robotPos => some robotPos
           | none => createdPos hist, some m)

/-- Embeds the live tracking of the robot's `{position, mission}` (the values
`runRobot` maintains while running, equally the `followRobot` fold): `created`
and `move` update the position, `mission` sets and `idle` clears the
mission. -/
def liveTracked (hist : List ROEvent) : Option Pos × Option String :=
  hist.foldl
    (fun acc e =>
      match e with
      | .createdEv p => (some p, acc.2)
      | .missionEv m => (acc.1, some m)
      | .idleEv => (acc.1, none)
      | .moveEv p => (some p, acc.2))
    (none, none)

/-- C8 evaluation at the failing input: a robot restarted mid-mission — its
own tag holds `created` followed by a `mission` event and nothing later —
recovers `mission = none`, because the machine folded over the robot's own
tag can never leave `RobotInitial` (no `request` event carries the robot
tag), while the live-tracked pair still holds the mission; so replaying the
history does not reproduce the live value and the robot does not resume the
instance, contradicting the claim (and Scenario E of the spec). -/
theorem C8_recovery_drops_mission_at_failing_input :
    recoverState [ROEvent.createdEv (Pos.mk 1 2), ROEvent.missionEv "m1"]
      = (some (Pos.mk 1 2), none) ∧
    liveTracked [ROEvent.createdEv (Pos.mk 1 2), ROEvent.missionEv "m1"]
      = (some (Pos.mk 1 2), some "m1") ∧
    robotFold (ownTagProtocolEvents
      [ROEvent.createdEv (Pos.mk 1 2), ROEvent.missionEv "m1"]) = RobotS.initial := by
  exact ⟨rfl, rfl, rfl⟩

end Watering
